import Mathlib

/-!
Verification of the cargo-pack library (src/lib.rs): a shallow embedding of
the manifest value tree, the path lookup algorithm, package resolution among
workspace members, and the manifest-decoding pipeline of `CargoPack`.

Machine integers (`usize`) are modelled as `Nat` with an explicit `2 ^ 64`
bound where Rust's overflow behaviour matters (a 64-bit platform is assumed).
-/

/-- The `toml::Value` union type: a manifest parses into this tree.
Tables are modelled as association lists with unique keys, the order being
irrelevant to every operation below (lookups take the first matching key,
as a `BTreeMap` with unique keys does).  The `float` payload is kept as raw
uninterpreted bits since no operation of this library inspects it. -/
inductive ValueTree where
  | table (entries : List (String × ValueTree))
  | arr (elems : List ValueTree)
  | str (s : String)
  | int (n : Int)
  | float (bits : Nat)
  | bool (b : Bool)
  | datetime (s : String)

/-- The `BTreeMap::remove(key)` result: the value bound to `key` in the table,
if any.  The map itself is discarded by `lookup` afterwards, so only the
extracted value is returned. -/
def assocFind : List (String × ValueTree) → String → Option ValueTree
  | [], _ => none
  | (k, v) :: rest, key => if k = key then some v else assocFind rest key

/-- Rust `str::parse::<usize>` strips at most one leading `'+'` sign
(a leading `'-'` is simply not a digit and makes the parse fail). -/
def stripPlus : List Char → List Char
  | [] => []
  | c :: rest => if c = '+' then rest else c :: rest

/-- Rust `str::parse::<usize>`: after the optional `'+'`, the string must be a
nonempty sequence of ASCII digits whose value fits in `usize` (64-bit), else
the parse fails. -/
def parseUsize (s : String) : Option Nat :=
  let cs := stripPlus s.data
  if cs.isEmpty then none
  else if cs.all Char.isDigit then
    let v := cs.foldl (fun a c => a * 10 + (c.toNat - 48)) 0
    if v < 2 ^ 64 then some v else none
  else none

/-- The `lookup` function of src/lib.rs (lines 76-98): walk `path` left to
right; on a `Table`, remove the entry keyed by the segment; on an `Array`,
parse the segment as a `usize` and remove the element at that index when in
bounds; on anything else, or on a missing key / bad index, return `none`.
`Vec::remove(idx)` returns the element at `idx`, modelled by `List.get`
(the mutated remainder of the vector is never revisited). -/
def lookup : ValueTree → List String → Option ValueTree
  | v, [] => some v
  | .table hm, key :: rest =>
    match assocFind hm key with
    | some v => lookup v rest
    | none => none
  | .arr v, key :: rest =>
    match parseUsize key with
    | some idx =>
      if h : idx < v.length then lookup (v.get ⟨idx, h⟩) rest else none
    | none => none
  | _, _ :: _ => none

/-- A defensive variant of `lookup` that models `Vec::remove`'s own bounds
check: `remove` is `List.get?`, and hitting its out-of-bounds branch (which
panics in Rust) is modelled by the outer `none`; `some r` means `lookup`
finished normally with result `r`. -/
def lookupChecked : ValueTree → List String → Option (Option ValueTree)
  | v, [] => some (some v)
  | .table hm, key :: rest =>
    match assocFind hm key with
    | some v => lookupChecked v rest
    | none => some none
  | .arr v, key :: rest =>
    match parseUsize key with
    | some idx =>
      if idx < v.length then
        match v.get? idx with
        | some e => lookupChecked e rest
        | none => none
      else some none
    | none => some none
  | _, _ :: _ => some none

/-- Claim C3: for every value tree `T`, `lookup T []` with the empty path
returns `T` itself, present and unchanged. -/
theorem c3_lookup_empty_path_identity (t : ValueTree) : lookup t [] = some t := by
  cases t <;> rfl

/-- Helper: a table none of whose keys is `key` yields no binding. -/
theorem assocFind_eq_none_of_not_mem (hm : List (String × ValueTree)) (key : String)
    (h : ∀ kv ∈ hm, kv.1 ≠ key) : assocFind hm key = none := by
  induction hm with
  | nil => rfl
  | cons kv rest ih =>
    have hk : kv.1 ≠ key := h kv (List.mem_cons_self kv rest)
    simp only [assocFind]
    rw [if_neg hk]
    exact ih fun p hp => h p (List.mem_cons_of_mem kv hp)

/-- Claim C5: on a table whose key set does not contain the current segment,
`lookup` returns absent, whatever the remaining deeper segments are. -/
theorem c5_lookup_table_missing_key (hm : List (String × ValueTree)) (key : String)
    (rest : List String) (h : ∀ kv ∈ hm, kv.1 ≠ key) :
    lookup (.table hm) (key :: rest) = none := by
  simp only [lookup, assocFind_eq_none_of_not_mem hm key h]

/-- Witness for C5 at a concrete table and a two-segment deeper path. -/
theorem c5_lookup_table_missing_key_witness :
    lookup (.table [(("a"), .int 1)]) (("b") :: ["x", "y"]) = none :=
  c5_lookup_table_missing_key _ _ _ (by decide)

/-- Claim C6: on a table, a segment is always treated as a table-key string,
even when it parses as a non-negative integer: the result is determined by
the key binding alone, never by positional indexing. -/
theorem c6_table_segment_key_dispatch (hm : List (String × ValueTree)) (key : String)
    (rest : List String) (idx : Nat) (_h : parseUsize key = some idx) :
    lookup (.table hm) (key :: rest) =
      (assocFind hm key).elim none (fun v => lookup v rest) := by
  simp only [lookup]
  cases assocFind hm key <;> rfl

/-- Witness for C6: segment `"0"` parses as index `0`, yet on the table
`[("2", "a"), ("0", "b")]` it selects the entry keyed `"0"` (the second
entry), not the entry at position `0`. -/
theorem c6_table_segment_key_dispatch_witness :
    lookup (.table [(("2"), .str ("a")), (("0"), .str ("b"))]) [("0")] =
      some (.str ("b")) :=
  (c6_table_segment_key_dispatch [(("2"), .str ("a")), (("0"), .str ("b"))]
    ("0") [] 0 (by decide)).trans rfl

/-- Claim C10: `lookup` is total and never reaches `Vec::remove`'s
out-of-bounds panic: the checked variant always finishes normally, agreeing
with `lookup`, on every tree and every path. -/
theorem c10_lookup_total_no_panic (t : ValueTree) (path : List String) :
    lookupChecked t path = some (lookup t path) := by
  induction path generalizing t with
  | nil => cases t <;> rfl
  | cons key rest ih =>
    cases t with
    | table hm =>
      simp only [lookup, lookupChecked]
      cases assocFind hm key with
      | none => rfl
      | some v => exact ih v
    | arr v =>
      simp only [lookup, lookupChecked]
      cases parseUsize key with
      | none => rfl
      | some idx =>
        dsimp only
        by_cases hlt : idx < v.length
        · rw [if_pos hlt, dif_pos hlt, List.get?_eq_get hlt]
          exact ih _
        · rw [if_neg hlt, dif_neg hlt]
    | str s => rfl
    | int n => rfl
    | float bits => rfl
    | bool b => rfl
    | datetime s => rfl

/-- One decimal digit as a character, `0 ↦ '0'`, ..., `9 ↦ '9'`. -/
def digitChar (d : Nat) : Char := Char.ofNat (48 + d)

/-- The decimal digits of `n`, most significant first, accumulated onto
`acc`. -/
def toDecAux (n : Nat) (acc : List Char) : List Char :=
  if n < 10 then digitChar n :: acc
  else toDecAux (n / 10) (digitChar (n % 10) :: acc)
termination_by n
decreasing_by exact Nat.div_lt_self (by omega) (by omega)

/-- The base-10 representation of a natural number, as produced by the
standard decimal formatter. -/
def decRepr (n : Nat) : String := String.mk (toDecAux n [])

theorem digitChar_toNat (d : Nat) (h : d < 10) : (digitChar d).toNat = 48 + d := by
  interval_cases d <;> rfl

theorem digitChar_isDigit (d : Nat) (h : d < 10) : (digitChar d).isDigit = true := by
  interval_cases d <;> rfl

theorem toDecAux_append (n : Nat) : ∀ acc, toDecAux n acc = toDecAux n [] ++ acc := by
  induction n using Nat.strong_induction_on with
  | _ n ih =>
    intro acc
    by_cases h : n < 10
    · conv_lhs => rw [toDecAux, if_pos h]
      conv_rhs => rw [toDecAux, if_pos h]
      rfl
    · have hd : n / 10 < n := Nat.div_lt_self (by omega) (by omega)
      rw [toDecAux, if_neg h, ih _ hd]
      conv_rhs => rw [toDecAux, if_neg h, ih _ hd]
      simp [List.append_assoc]

theorem toDecAux_ne_nil (n : Nat) : toDecAux n [] ≠ [] := by
  by_cases h : n < 10
  · rw [toDecAux, if_pos h]
    simp
  · rw [toDecAux, if_neg h, toDecAux_append]
    simp

theorem toDecAux_all_digits (n : Nat) : ∀ c ∈ toDecAux n [], c.isDigit = true := by
  induction n using Nat.strong_induction_on with
  | _ n ih =>
    intro c hc
    by_cases h : n < 10
    · rw [toDecAux, if_pos h] at hc
      rcases List.mem_singleton.mp hc with rfl
      exact digitChar_isDigit n h
    · have hd : n / 10 < n := Nat.div_lt_self (by omega) (by omega)
      rw [toDecAux, if_neg h, toDecAux_append] at hc
      rcases List.mem_append.mp hc with h1 | h1
      · exact ih _ hd c h1
      · rcases List.mem_singleton.mp h1 with rfl
        exact digitChar_isDigit _ (Nat.mod_lt n (by omega))

theorem fold_toDecAux (n : Nat) :
    ∀ v, (toDecAux n []).foldl (fun a c => a * 10 + (c.toNat - 48)) v =
      v * 10 ^ (toDecAux n []).length + n := by
  induction n using Nat.strong_induction_on with
  | _ n ih =>
    intro v
    by_cases h : n < 10
    · rw [toDecAux, if_pos h]
      simp [List.foldl, digitChar_toNat n h]
    · have hd : n / 10 < n := Nat.div_lt_self (by omega) (by omega)
      rw [toDecAux, if_neg h, toDecAux_append]
      rw [List.foldl_append, List.length_append, ih _ hd v]
      simp only [List.foldl, List.length_singleton]
      rw [digitChar_toNat _ (Nat.mod_lt n (by omega))]
      have hm : 48 + n % 10 - 48 = n % 10 := by omega
      rw [hm, pow_succ]
      have hdm : 10 * (n / 10) + n % 10 = n := Nat.div_add_mod n 10
      ring_nf
      omega

/-- Rust's `usize` parse reconstructs exactly the number a decimal
representation denotes, failing precisely when the value overflows 64 bits. -/
theorem parseUsize_decRepr (n : Nat) :
    parseUsize (decRepr n) = if n < 2 ^ 64 then some n else none := by
  have hne := toDecAux_ne_nil n
  have hdig := toDecAux_all_digits n
  obtain ⟨c, cs, hcons⟩ := List.exists_cons_of_ne_nil hne
  have hc : c.isDigit = true := hdig c (hcons ▸ List.mem_cons_self c cs)
  have hcp : c ≠ '+' := by
    intro h
    rw [h] at hc
    exact absurd hc (by decide)
  unfold parseUsize decRepr
  have hdata : (String.mk (toDecAux n [])).data = toDecAux n [] := rfl
  rw [hdata, hcons]
  simp only [stripPlus, if_neg hcp]
  have hemp : (c :: cs).isEmpty = false := rfl
  rw [hemp]
  have hall : (c :: cs).all Char.isDigit = true := by
    rw [List.all_eq_true]
    intro x hx
    exact hdig x (hcons ▸ hx)
  simp only [Bool.false_eq_true, if_false, hall, if_true]
  have hfold := fold_toDecAux n 0
  rw [hcons] at hfold
  simp only [Nat.zero_mul, Nat.zero_add] at hfold
  simp [hfold]

/-- Claim C4: on an array of length `n` (with `n` a valid Rust `Vec` length,
below `2 ^ 64`) and a final segment: the decimal representation of `k < n`
selects the element at index `k`; the decimal representation of `k ≥ n`
yields absent; a segment that does not parse as a non-negative base-10
`usize` yields absent. -/
theorem c4_lookup_array_semantics (elems : List ValueTree) (k : Nat) (s : String)
    (hlen : elems.length < 2 ^ 64) :
    (k < elems.length → lookup (.arr elems) [decRepr k] = elems.get? k)
    ∧ (elems.length ≤ k → lookup (.arr elems) [decRepr k] = none)
    ∧ (parseUsize s = none → lookup (.arr elems) [s] = none) := by
  refine ⟨?_, ?_, ?_⟩
  · intro hk
    have hk64 : k < 2 ^ 64 := lt_trans hk hlen
    simp only [lookup, parseUsize_decRepr k, if_pos hk64]
    rw [dif_pos hk, List.get?_eq_get hk]
  · intro hk
    by_cases hk64 : k < 2 ^ 64
    · simp only [lookup, parseUsize_decRepr k, if_pos hk64]
      rw [dif_neg (by omega)]
    · simp only [lookup, parseUsize_decRepr k, if_neg hk64]
  · intro hs
    simp only [lookup, hs]

/-- Witness for C4 on the two-element array `["x", "y"]` with `k = 1`,
`k = 5`, and the non-numeric segment `"q"`. -/
theorem c4_lookup_array_semantics_witness :
    lookup (.arr [.str ("x"), .str ("y")]) [decRepr 1] =
      [ValueTree.str ("x"), ValueTree.str ("y")].get? 1
    ∧ lookup (.arr [.str ("x"), .str ("y")]) [decRepr 5] = none
    ∧ lookup (.arr [.str ("x"), .str ("y")]) [("q")] = none :=
  ⟨(c4_lookup_array_semantics [.str ("x"), .str ("y")] 1 ("q") (by norm_num)).1
      (by norm_num),
   (c4_lookup_array_semantics [.str ("x"), .str ("y")] 5 ("q") (by norm_num)).2.1
      (by norm_num),
   (c4_lookup_array_semantics [.str ("x"), .str ("y")] 5 ("q") (by norm_num)).2.2
      (by decide)⟩

/-- A workspace member (`cargo::core::Package`): the library only ever reads
its name and its manifest file location. -/
structure Package where
  name : String
  manifestPath : String
deriving DecidableEq

deriving instance DecidableEq for Except

/-- The resolved workspace (`cargo::core::Workspace`): its member packages
and the result of `Workspace::current()` (which can fail, e.g. for a virtual
workspace), both fixed once the workspace is constructed.  Errors throughout
are modelled by their message strings, as `error_chain` string errors. -/
structure Workspace where
  members : List Package
  current : Except String Package
deriving DecidableEq

/-- The `PackConfig` struct deserialized from `[package.metadata.pack]`:
both fields optional, absent keys mapping to `none`. -/
structure PackConfig where
  files : Option (List String)
  default_packers : Option (List String)
deriving DecidableEq

/-- The external collaborators of the pipeline: `paths::read` (manifest
location to raw contents or an I/O error) and `toml::parse` (contents to a
value tree or a parse error). -/
structure Env where
  read : String → Except String String
  parse : String → Except String ValueTree

/-- The outcome of a fallible Rust call that may also panic: `ok` and `err`
are the two sides of `Result`, and `panicked` models process abortion via
`panic!`/`.expect`, which no caller can recover from. -/
inductive Outcome (α : Type) where
  | ok (a : α)
  | err (e : String)
  | panicked (msg : String)
deriving DecidableEq

/-- The `CargoPack` facade: the resolved workspace, the optional requested
package name, and the eagerly decoded `PackConfig`. -/
structure CargoPack where
  ws : Workspace
  package_name : Option String
  pack_config : PackConfig
deriving DecidableEq

/-- The manifest-path selection of `decode_from_manifest_static`
(src/lib.rs lines 153-164): with a requested name, filter the members by
exact name equality and demand exactly one match; with no name, take the
current member's manifest path.  The `[]`/`[p]`/two-or-more split is Rust's
`match names.len() { 0 => .., 1 => names[0].., _ => .. }`. -/
def resolveManifest (ws : Workspace) : Option String → Except String String
  | some name =>
    match ws.members.filter (fun p => p.name == name) with
    | [] => .error ("unknown package " ++ name)
    | [p] => .ok p.manifestPath
    | _ :: _ :: _ => .error ("ambiguous name " ++ name)
  | none => ws.current.map (fun p => p.manifestPath)

/-- `CargoPack::package` (src/lib.rs lines 133-147): the same zero/one/many
filter on member names, returning the package itself; with no requested
name, `Workspace::current()`. -/
def resolvePackage (members : List Package) (current : Except String Package) :
    Option String → Except String Package
  | some name =>
    match members.filter (fun p => p.name == name) with
    | [] => .error ("unknown package " ++ name)
    | [p] => .ok p
    | _ :: _ :: _ => .error ("ambiguous name " ++ name)
  | none => current

/-- Serde decoding of a TOML array of strings (`Vec<String>`): every element
must be a TOML string, anything else is a shape error. -/
def decodeStringArray : ValueTree → Except String (List String)
  | .arr elems =>
    elems.mapM fun v =>
      match v with
      | .str s => Except.ok s
      | _ => Except.error ("invalid type: expected string")
  | _ => .error ("invalid type: expected array")

/-- Serde decoding of an `Option<Vec<String>>` field: a missing key is
`none`, a present key must hold an array of strings. -/
def decodeOptStringArray : Option ValueTree → Except String (Option (List String))
  | none => .ok none
  | some v => (decodeStringArray v).map some

/-- Serde decoding of `PackConfig` from a TOML value with
`rename_all = "kebab-case"`: the value must be a table; the optional fields
are read at keys `"files"` and `"default-packers"`; unknown keys are
ignored. -/
def decodePackConfig (v : ValueTree) : Except String PackConfig :=
  match v with
  | .table hm =>
    match decodeOptStringArray (assocFind hm ("files")) with
    | .error e => .error e
    | .ok files =>
      match decodeOptStringArray (assocFind hm ("default-packers")) with
      | .error e => .error e
      | .ok dp => .ok ⟨files, dp⟩
  | _ => .error ("invalid type: expected table")

/-- `CargoPack::decode_from_manifest_static` (src/lib.rs lines 149-173),
generic over the serde target through `decode`: select the manifest path,
read it, parse it, `lookup` the fixed path `["package", "metadata", "pack"]`
— whose absence hits `.expect(..)`, i.e. a panic — and decode the extracted
subtree. -/
def decode_from_manifest_static {α : Type} (env : Env) (ws : Workspace)
    (package_name : Option String) (decode : ValueTree → Except String α) :
    Outcome α :=
  match resolveManifest ws package_name with
  | .error e => .err e
  | .ok manifest =>
    match env.read manifest with
    | .error e => .err e
    | .ok contents =>
      match env.parse contents with
      | .error e => .err e
      | .ok root =>
        match lookup root [("package"), ("metadata"), ("pack")] with
        | none => .panicked ("no package.metadata.pack found in Cargo.toml")
        | some data =>
          match decode data with
          | .error e => .err e
          | .ok t => .ok t

/-- `CargoPack::new` (src/lib.rs lines 108-120) from the point where the
workspace has been discovered and constructed (both preceding steps are
external and fallible on their own): run the pipeline once for `PackConfig`
and bundle the facade. -/
def CargoPack.new (env : Env) (ws : Workspace) (package_name : Option String) :
    Outcome CargoPack :=
  match decode_from_manifest_static env ws package_name decodePackConfig with
  | .ok pc => .ok ⟨ws, package_name, pc⟩
  | .err e => .err e
  | .panicked m => .panicked m

/-- `CargoPack::config` accessor: the stored `PackConfig`, total. -/
def CargoPack.config (p : CargoPack) : PackConfig := p.pack_config

/-- `CargoPack::package` accessor: independent re-resolution against the
stored workspace and stored package name. -/
def CargoPack.package (p : CargoPack) : Except String Package :=
  resolvePackage p.ws.members p.ws.current p.package_name

/-- `CargoPack::decode_from_manifest`: re-run the static pipeline with the
facade's own stored workspace and package name. -/
def CargoPack.decode_from_manifest {α : Type} (env : Env) (p : CargoPack)
    (decode : ValueTree → Except String α) : Outcome α :=
  decode_from_manifest_static env p.ws p.package_name decode

/-- `CargoPack::files` (src/lib.rs lines 182-188): the `files` field,
collapsing `none` to the empty sequence. -/
def CargoPack.files (p : CargoPack) : List String :=
  (p.pack_config.files).getD []

/-- Fixture: a one-member workspace whose current member is that member. -/
def pkgFoo : Package := ⟨("foo"), ("/w/foo/Cargo.toml")⟩

/-- Fixture workspace holding `pkgFoo`. -/
def wsW : Workspace := ⟨[pkgFoo], .ok pkgFoo⟩

/-- Fixture: a manifest tree carrying an empty `[package.metadata.pack]`
table. -/
def treePack : ValueTree :=
  .table [(("package"), .table [(("metadata"), .table [(("pack"), .table [])])])]

/-- Fixture: a manifest tree with a `[package]` table but no recognized
metadata block anywhere. -/
def treeNoPack : ValueTree :=
  .table [(("package"), .table [(("name"), .str ("foo"))])]

/-- Fixture read collaborator: every path reads successfully. -/
def readW : String → Except String String := fun _ => .ok ("")

/-- Fixture parse collaborator: parsing yields the tree with the pack block. -/
def parseW : String → Except String ValueTree := fun _ => .ok treePack

/-- Fixture environment whose manifest carries the pack block. -/
def envW : Env := ⟨readW, parseW⟩

/-- Fixture environment whose manifest parses fine but carries no
`[package.metadata.pack]` block. -/
def envNoPack : Env := ⟨readW, fun _ => .ok treeNoPack⟩

/-- Fixture facade as `CargoPack::new` would build it over `envW`. -/
def packW : CargoPack := ⟨wsW, none, ⟨none, none⟩⟩

/-- Claim C1: the claim (and spec sections 7 and 9) requires construction to
succeed with `files = none` and `default_packers = none` when an otherwise
valid manifest has no block at `["package", "metadata", "pack"]`.  The code
instead reaches the `.expect(..)` on the `lookup` result (src/lib.rs line
171) and aborts: at a concrete such manifest, `CargoPack::new` panics rather
than returning any `PackConfig`. -/
theorem c1_missing_metadata_panics :
    CargoPack.new envNoPack wsW none =
      .panicked ("no package.metadata.pack found in Cargo.toml") := by
  rfl

/-- Claim C2: on a successfully constructed facade every accessor succeeds.
In the embedding `ws`, `config` and `files` are total functions by type; the
one fallible accessor, `package`, is proved to return `ok`: construction ran
the same zero/one/many member scan (or `Workspace::current()`), so its
success forces re-resolution on the stored workspace to succeed. -/
theorem c2_accessors_never_fail (env : Env) (ws : Workspace) (name : Option String)
    (pack : CargoPack) (h : CargoPack.new env ws name = Outcome.ok pack) :
    ∃ pkg, CargoPack.package pack = Except.ok pkg := by
  unfold CargoPack.new at h
  cases hd : decode_from_manifest_static env ws name decodePackConfig with
  | err e => rw [hd] at h; cases h
  | panicked m => rw [hd] at h; cases h
  | ok pc =>
    rw [hd] at h
    cases h
    unfold decode_from_manifest_static at hd
    cases hm : resolveManifest ws name with
    | error e => rw [hm] at hd; cases hd
    | ok m =>
      unfold CargoPack.package
      dsimp only
      cases name with
      | none =>
        simp only [resolveManifest] at hm
        cases hc : ws.current with
        | error e => rw [hc] at hm; cases hm
        | ok p => exact ⟨p, by simp [resolvePackage, hc]⟩
      | some n =>
        simp only [resolveManifest] at hm
        cases hf : ws.members.filter (fun mem => mem.name == n) with
        | nil => rw [hf] at hm; cases hm
        | cons p rest =>
          cases rest with
          | nil => exact ⟨p, by simp [resolvePackage, hf]⟩
          | cons q rest2 => rw [hf] at hm; cases hm

/-- Witness for C2 over the fixture environment with the pack block. -/
theorem c2_accessors_never_fail_witness :
    ∃ pkg, CargoPack.package packW = Except.ok pkg :=
  c2_accessors_never_fail envW wsW none packW (by rfl)

/-- Claim C7: package resolution filters members by exact name equality and
splits on the number of matches: none requested returns the current member
without scanning (for any member list); zero matches is the unknown-package
error naming the request; one match is that member; two or more matches is
the ambiguous-package error naming the request. -/
theorem c7_resolve_package_cases (members : List Package)
    (current : Except String Package) (n : String) :
    resolvePackage members current none = current
    ∧ (members.filter (fun mem => mem.name == n) = [] →
        resolvePackage members current (some n) = .error ("unknown package " ++ n))
    ∧ (∀ p, members.filter (fun mem => mem.name == n) = [p] →
        resolvePackage members current (some n) = .ok p)
    ∧ (2 ≤ (members.filter (fun mem => mem.name == n)).length →
        resolvePackage members current (some n) = .error ("ambiguous name " ++ n)) := by
  refine ⟨rfl, ?_, ?_, ?_⟩
  · intro h
    simp only [resolvePackage]
    rw [h]
  · intro p h
    simp only [resolvePackage]
    rw [h]
  · intro h
    simp only [resolvePackage]
    cases hf : members.filter (fun mem => mem.name == n) with
    | nil => rw [hf] at h; simp at h
    | cons p rest =>
      cases rest with
      | nil => rw [hf] at h; simp at h
      | cons q rest2 => rfl

/-- Fixture member named `"a"`. -/
def pkgA : Package := ⟨("a"), ("ma")⟩

/-- Fixture member named `"b"`. -/
def pkgB1 : Package := ⟨("b"), ("mb1")⟩

/-- Fixture second member named `"b"`. -/
def pkgB2 : Package := ⟨("b"), ("mb2")⟩

/-- Witness for C7 on members named `a`, `b`, `b`: requesting `b` is
ambiguous, `c` is unknown, `a` resolves to the sole member named `a`. -/
theorem c7_resolve_package_cases_witness :
    resolvePackage [pkgA, pkgB1, pkgB2] (Except.ok pkgA) (some ("b")) =
      .error ("ambiguous name " ++ "b")
    ∧ resolvePackage [pkgA, pkgB1, pkgB2] (Except.ok pkgA) (some ("c")) =
      .error ("unknown package " ++ "c")
    ∧ resolvePackage [pkgA, pkgB1, pkgB2] (Except.ok pkgA) (some ("a")) =
      .ok pkgA :=
  ⟨(c7_resolve_package_cases [pkgA, pkgB1, pkgB2] (Except.ok pkgA) ("b")).2.2.2
      (by decide),
   (c7_resolve_package_cases [pkgA, pkgB1, pkgB2] (Except.ok pkgA) ("c")).2.1
      (by decide),
   (c7_resolve_package_cases [pkgA, pkgB1, pkgB2] (Except.ok pkgA) ("a")).2.2.1
      pkgA (by decide)⟩

/-- Claim C8: the `files` accessor returns the decoded `files` contents when
specified and the empty sequence when the field is `none`, collapsing
"unspecified" to "empty" unlike the underlying optional field. -/
theorem c8_files_accessor (p : CargoPack) (fs : List String) :
    (p.pack_config.files = some fs → CargoPack.files p = fs)
    ∧ (p.pack_config.files = none → CargoPack.files p = []) := by
  constructor
  · intro h
    unfold CargoPack.files
    rw [h]
    rfl
  · intro h
    unfold CargoPack.files
    rw [h]
    rfl

/-- Fixture facade whose config specifies two files. -/
def packFiles : CargoPack := ⟨wsW, none, ⟨some [("README.md"), ("LICENSE")], none⟩⟩

/-- Witness for C8 on a facade with `files` specified and one without. -/
theorem c8_files_accessor_witness :
    CargoPack.files packFiles = [("README.md"), ("LICENSE")]
    ∧ CargoPack.files packW = [] :=
  ⟨(c8_files_accessor packFiles [("README.md"), ("LICENSE")]).1 rfl,
   (c8_files_accessor packW []).2 rfl⟩

/-- Claim C9: two runs of the generic decode operation against an unmodified
manifest file — the read collaborator answering identically both times, the
parser unchanged — produce equal decoded results, for every facade and every
decodable target. -/
theorem c9_decode_idempotent {α : Type} (read1 read2 : String → Except String String)
    (parse : String → Except String ValueTree) (p : CargoPack)
    (decode : ValueTree → Except String α)
    (h : ∀ pth, read1 pth = read2 pth) :
    CargoPack.decode_from_manifest ⟨read1, parse⟩ p decode =
      CargoPack.decode_from_manifest ⟨read2, parse⟩ p decode := by
  unfold CargoPack.decode_from_manifest decode_from_manifest_static
  cases resolveManifest p.ws p.package_name with
  | error e => rfl
  | ok manifest =>
    dsimp only
    rw [h manifest]

/-- Fixture second read collaborator, pointwise equal to `readW`. -/
def readW2 : String → Except String String := fun _ => .ok ("")

/-- Witness for C9: the two pointwise-equal read collaborators give equal
decode results on the fixture facade. -/
theorem c9_decode_idempotent_witness :
    CargoPack.decode_from_manifest ⟨readW, parseW⟩ packW decodePackConfig =
      CargoPack.decode_from_manifest ⟨readW2, parseW⟩ packW decodePackConfig :=
  c9_decode_idempotent readW readW2 parseW packW decodePackConfig (fun _pth => rfl)
